import Mathlib

/- Core's rational arithmetic is marked irreducible, which prevents the
`decide`-based evaluation of the embedded operations on concrete inputs;
restore the default reducibility so closed theorems can be checked by
evaluation. -/
set_option allowUnsafeReducibility true in
attribute [semireducible] Rat.add Rat.mul Rat.inv Rat.sub Rat.div Rat.neg Rat.blt

/-!
Verification development for the ride-sharing simulation core
(DBSCAN clusterer + genetic matcher + metrics), shallowly embedded from
the TypeScript sources.

Modelling conventions:
* JavaScript `number` values are modelled as rationals (`ℚ`); the claims
  settled here concern control flow, bookkeeping and algebraic structure,
  none of which depend on floating-point rounding.
* The transcendental `haversineDistance` is abstracted as an explicit
  distance-function parameter `hav : Coordinates → Coordinates → ℚ`;
  every embedded operation receives it, mirroring the import of
  `haversineDistance` from `utils/geo`.  Concrete instantiations in
  witnesses use a rational metric.
* `Date` timestamps are rationals (milliseconds since epoch); the clock
  read `new Date()` inside `cluster` is an explicit `now` parameter.
* `uuidv4()` draws are modelled as an explicit id stream `ids : ℕ → String`
  consumed in push order; `Math.random()` draws are modelled as an explicit
  stream `rng : ℕ → ℚ` consumed via a counter threaded through the code.
-/

/-- `Coordinates` from `models/types.ts`. -/
structure Coordinates where
  lat : ℚ
  lng : ℚ
deriving DecidableEq, Repr

/-- `RideRequest` from `models/types.ts` (timestamp in milliseconds). -/
structure RideRequest where
  id : String
  pickupLocation : Coordinates
  dropoffLocation : Coordinates
  timestamp : ℚ
deriving DecidableEq, Repr

/-- `Vehicle` from `models/types.ts` (`currentRoute` is never read by the
matching/clustering core, so it is omitted from the embedding). -/
structure Vehicle where
  id : String
  location : Coordinates
  capacity : ℤ
  availableSeats : ℤ
deriving DecidableEq, Repr

/-- `Cluster` from `models/types.ts`. -/
structure Cluster where
  id : String
  centroid : Coordinates
  requests : List RideRequest
deriving DecidableEq, Repr

/-- `Assignment` from `models/types.ts`. -/
structure Assignment where
  vehicleId : String
  requestIds : List String
  route : List Coordinates
deriving DecidableEq, Repr

/-- The abstracted `haversineDistance` primitive (see module docstring). -/
abbrev Hav := Coordinates → Coordinates → ℚ

/-- `calculateCentroid` from `config/simulationConfig.ts` (geo utils
section): throws on an empty array, otherwise folds a coordinate sum and
divides both components by the length.  The `throw` is modelled as
`Except.error` carrying the message. -/
def calculateCentroid (coordinates : List Coordinates) : Except String Coordinates :=
  if coordinates.length = 0 then
    .error "Cannot calculate centroid of empty coordinates array"
  else
    let sum := coordinates.foldl
      (fun acc coord => ⟨acc.lat + coord.lat, acc.lng + coord.lng⟩)
      (⟨0, 0⟩ : Coordinates)
    .ok ⟨sum.lat / coordinates.length, sum.lng / coordinates.length⟩

lemma calculateCentroid_foldl (l : List Coordinates) (a : Coordinates) :
    l.foldl (fun acc coord => (⟨acc.lat + coord.lat, acc.lng + coord.lng⟩ : Coordinates)) a
      = ⟨a.lat + (l.map Coordinates.lat).sum, a.lng + (l.map Coordinates.lng).sum⟩ := by
  induction l generalizing a with
  | nil => simp
  | cons c l ih =>
      simp only [List.foldl_cons, ih, List.map_cons, List.sum_cons]
      exact congrArg₂ Coordinates.mk (by ring) (by ring)

/-- C9: `calculateCentroid` fails with the invalid-input error exactly on
the empty list, and on a non-empty list returns the arithmetic mean of the
latitudes and of the longitudes, each computed independently from its own
component list. -/
theorem centroid_error_iff_empty_and_mean (points : List Coordinates) :
    ((calculateCentroid points).isOk = false ↔ points = []) ∧
    (points ≠ [] →
      calculateCentroid points =
        .ok ⟨(points.map Coordinates.lat).sum / points.length,
             (points.map Coordinates.lng).sum / points.length⟩) := by
  constructor
  · unfold calculateCentroid
    rcases points with _ | ⟨c, l⟩ <;> simp [Except.isOk, Except.toBool]
  · intro h
    unfold calculateCentroid
    rw [if_neg (by simpa using h)]
    rw [calculateCentroid_foldl]
    simp

/-- Witness for the non-empty branch of the centroid theorem at a concrete
two-point input. -/
theorem centroid_error_iff_empty_and_mean_witness :
    ([⟨1, 2⟩, ⟨3, 6⟩] : List Coordinates) ≠ [] ∧
    calculateCentroid [⟨1, 2⟩, ⟨3, 6⟩] = .ok ⟨2, 4⟩ := by
  refine ⟨by decide, ?_⟩
  have h := (centroid_error_iff_empty_and_mean [⟨1, 2⟩, ⟨3, 6⟩]).2 (by decide)
  rw [h]
  norm_num

/-! ## SimulationService.calculateMetrics (SimulationService source file) -/

/-- Sum of consecutive-leg distances of a waypoint list (the
`for (let i = 0; i < route.length - 1; i++)` accumulation pattern used in
`calculateMetrics` and in the genetic matcher's fitness). -/
def pathDist (hav : Hav) : List Coordinates → ℚ
  | a :: b :: rest => hav a b + pathDist hav (b :: rest)
  | _ => 0

/-- `requests.filter(req => assignment.requestIds.includes(req.id))` from
`calculateMetrics`. -/
def matchedRequestsOf (requests : List RideRequest) (assignment : Assignment) : List RideRequest :=
  requests.filter (fun req => assignment.requestIds.contains req.id)

/-- The body of the `assignments.forEach` accumulation in
`calculateMetrics`: state is (totalDetourDistance, totalDirectDistance,
sharedRideCount); assignments with fewer than 2 route points are skipped. -/
def metricsStep (hav : Hav) (requests : List RideRequest) (st : ℚ × ℚ × ℕ)
    (assignment : Assignment) : ℚ × ℚ × ℕ :=
  let route := assignment.route
  if route.length < 2 then st
  else
    let routeDistance := pathDist hav route
    let matched := matchedRequestsOf requests assignment
    let directSum := (matched.map (fun request => hav (route.headD ⟨0, 0⟩) request.dropoffLocation)).sum
    (st.1 + routeDistance, st.2.1 + directSum, st.2.2 + matched.length)

/-- Metrics record returned by `SimulationService.calculateMetrics`. -/
structure SimMetrics where
  percentageMatched : ℚ
  averageDetourDistance : ℚ
  totalDistanceSaved : ℚ
deriving DecidableEq, Repr

/-- `SimulationService.calculateMetrics`, the revision in the
`services/SimulationService` file: percentage of distinct matched request
ids, then the accumulation over assignments of optimized route distance
versus the direct vehicle-to-dropoff distances (the `new Set` is modelled
by `dedup`, whose length is the set's size).  A second revision of this
class, bundled at the end of App.tsx and imported by the App component,
replaces the direct baseline with the sequential-tour baseline; it is
embedded below as `calculateMetricsSequential`. -/
def calculateMetrics (hav : Hav) (requests : List RideRequest)
    (assignments : List Assignment) : SimMetrics :=
  let matchedRequestIds := (assignments.flatMap Assignment.requestIds).dedup
  let percentageMatched :=
    if 0 < requests.length then ((matchedRequestIds.length : ℚ) / (requests.length : ℚ)) * 100
    else 0
  let st := assignments.foldl (metricsStep hav requests) (0, 0, 0)
  let averageDetourDistance :=
    if 0 < st.2.2 then (st.1 - st.2.1) / (st.2.2 : ℚ) else 0
  { percentageMatched := percentageMatched
    averageDetourDistance := averageDetourDistance
    totalDistanceSaved := st.2.1 - st.1 }

/-- Optimized route distance of one assignment (Σ consecutive haversine legs). -/
def assignmentRouteDist (hav : Hav) (a : Assignment) : ℚ := pathDist hav a.route

/-- Direct-baseline distance of one assignment: sum over its matched
requests of the distance from the route start to the request's dropoff. -/
def assignmentDirectDist (hav : Hav) (requests : List RideRequest) (a : Assignment) : ℚ :=
  ((matchedRequestsOf requests a).map (fun r => hav (a.route.headD ⟨0, 0⟩) r.dropoffLocation)).sum

/-- Assignments that are not skipped by the `route.length < 2` guard. -/
def validAssignments (assignments : List Assignment) : List Assignment :=
  assignments.filter (fun a => 2 ≤ a.route.length)

lemma metrics_foldl_eq (hav : Hav) (requests : List RideRequest)
    (l : List Assignment) (t d : ℚ) (c : ℕ) :
    l.foldl (metricsStep hav requests) (t, d, c) =
      (t + ((validAssignments l).map (assignmentRouteDist hav)).sum,
       d + ((validAssignments l).map (assignmentDirectDist hav requests)).sum,
       c + ((validAssignments l).map (fun a => (matchedRequestsOf requests a).length)).sum) := by
  induction l generalizing t d c with
  | nil => simp [validAssignments]
  | cons a l ih =>
      by_cases h : a.route.length < 2
      · have hv : validAssignments (a :: l) = validAssignments l := by
          simp [validAssignments, List.filter_cons, Nat.not_le.mpr h]
        rw [List.foldl_cons, metricsStep, if_pos h, hv, ih]
      · have h2 : 2 ≤ a.route.length := Nat.not_lt.mp h
        have hv : validAssignments (a :: l) = a :: validAssignments l := by
          simp [validAssignments, List.filter_cons, h2]
        rw [List.foldl_cons, metricsStep, if_neg h, ih, hv]
        simp only [List.map_cons, List.sum_cons, assignmentRouteDist, assignmentDirectDist]
        refine congrArg₂ Prod.mk (by ring) (congrArg₂ Prod.mk (by ring) (by omega))

/-- Stable insertion of `a` into a list sorted ascending by `key`:
`a` is placed before the first element whose key is not smaller, so equal
keys keep their original relative order. -/
def insertAscBy {α : Type} (key : α → ℚ) (a : α) : List α → List α
  | [] => [a]
  | b :: l => if key b < key a then b :: insertAscBy key a l else a :: b :: l

/-- Stable ascending sort by a rational key (structural recursion, so it
evaluates inside the kernel; produces the order a stable JS sort yields). -/
def sortAscBy {α : Type} (key : α → ℚ) : List α → List α
  | [] => []
  | a :: l => insertAscBy key a (sortAscBy key l)

/-- Stable insertion of `a` into a list sorted descending by `key`. -/
def insertDescBy {α : Type} (key : α → ℚ) (a : α) : List α → List α
  | [] => [a]
  | b :: l => if key a < key b then b :: insertDescBy key a l else a :: b :: l

/-- Stable descending sort by a rational key. -/
def sortDescBy {α : Type} (key : α → ℚ) : List α → List α
  | [] => []
  | a :: l => insertDescBy key a (sortDescBy key l)

/-- `SimulationService.calculateSequentialRouteDistance` from the
orchestrator revision bundled in App.tsx: starting at the vehicle
location, visit each request's pickup then dropoff, one request at a
time, over the requests sorted ascending by timestamp (the stable JS
sort with the `a.timestamp - b.timestamp` comparator); returns 0 on an
empty request list. -/
def calculateSequentialRouteDistance (hav : Hav) (vehicleLocation : Coordinates)
    (requests : List RideRequest) : ℚ :=
  if requests.length = 0 then 0
  else
    ((sortAscBy RideRequest.timestamp requests).foldl
      (fun st request =>
        (st.1 + hav st.2 request.pickupLocation +
          hav request.pickupLocation request.dropoffLocation,
         request.dropoffLocation))
      (0, vehicleLocation)).1

/-- The body of the `assignments.forEach` accumulation in the App.tsx
revision of `calculateMetrics`: state is (totalDetourDistance,
totalSequentialDistance, sharedRideCount); assignments with fewer than 2
route points are skipped. -/
def metricsSeqStep (hav : Hav) (requests : List RideRequest) (st : ℚ × ℚ × ℕ)
    (assignment : Assignment) : ℚ × ℚ × ℕ :=
  let route := assignment.route
  if route.length < 2 then st
  else
    let optimizedRouteDistance := pathDist hav route
    let matched := matchedRequestsOf requests assignment
    let sequentialDistance :=
      calculateSequentialRouteDistance hav (route.headD ⟨0, 0⟩) matched
    (st.1 + optimizedRouteDistance, st.2.1 + sequentialDistance, st.2.2 + matched.length)

/-- `SimulationService.calculateMetrics`, the revision bundled in App.tsx:
identical percentage computation, but the baseline is the sequential
one-by-one pickup/dropoff tour per assignment. -/
def calculateMetricsSequential (hav : Hav) (requests : List RideRequest)
    (assignments : List Assignment) : SimMetrics :=
  let matchedRequestIds := (assignments.flatMap Assignment.requestIds).dedup
  let percentageMatched :=
    if 0 < requests.length then ((matchedRequestIds.length : ℚ) / (requests.length : ℚ)) * 100
    else 0
  let st := assignments.foldl (metricsSeqStep hav requests) (0, 0, 0)
  let averageDetourDistance :=
    if 0 < st.2.2 then (st.1 - st.2.1) / (st.2.2 : ℚ) else 0
  { percentageMatched := percentageMatched
    averageDetourDistance := averageDetourDistance
    totalDistanceSaved := st.2.1 - st.1 }

/-- Sequential-baseline distance of one assignment. -/
def assignmentSequentialDist (hav : Hav) (requests : List RideRequest) (a : Assignment) : ℚ :=
  calculateSequentialRouteDistance hav (a.route.headD ⟨0, 0⟩) (matchedRequestsOf requests a)

/-- Concrete request for the metric evaluations: the pickup is a detour
away from the straight vehicle-to-dropoff line. -/
def mCexRequest : RideRequest := ⟨"r", ⟨5, 0⟩, ⟨1, 0⟩, 0⟩

/-- Concrete assignment for the metric evaluations. -/
def mCexAssignment : Assignment := ⟨"v", ["r"], [⟨0, 0⟩, ⟨5, 0⟩, ⟨1, 0⟩]⟩

/-- A concrete rational metric used to instantiate the abstracted distance
function in closed evaluations (taxicab distance on the coordinate plane). -/
def flatDist (a b : Coordinates) : ℚ :=
  (if a.lat ≤ b.lat then b.lat - a.lat else a.lat - b.lat) +
  (if a.lng ≤ b.lng then b.lng - a.lng else a.lng - b.lng)

lemma seq_foldl_pathDist (hav : Hav) (l : List RideRequest) :
    ∀ (t : ℚ) (cur : Coordinates),
      (l.foldl (fun st request =>
          ((st.1 + hav st.2 request.pickupLocation +
            hav request.pickupLocation request.dropoffLocation : ℚ),
           request.dropoffLocation)) (t, cur)).1 =
        t + pathDist hav (cur :: l.flatMap (fun r => [r.pickupLocation, r.dropoffLocation])) := by
  induction l with
  | nil =>
      intro t cur
      simp [pathDist]
  | cons r l ih =>
      intro t cur
      rw [List.foldl_cons, ih, List.flatMap_cons]
      show _ = t + pathDist hav (cur :: r.pickupLocation :: r.dropoffLocation :: _)
      rw [pathDist, pathDist]
      rw [show ([] : List Coordinates).append
          (l.flatMap fun r => [r.pickupLocation, r.dropoffLocation]) =
          l.flatMap fun r => [r.pickupLocation, r.dropoffLocation] from rfl]
      ring

/-- The sequential accumulation equals the distance of the explicit
vehicle → p1 → d1 → p2 → d2 → … tour over the timestamp-sorted requests. -/
lemma calculateSequentialRouteDistance_eq_pathDist (hav : Hav) (start : Coordinates)
    (reqs : List RideRequest) :
    calculateSequentialRouteDistance hav start reqs =
      pathDist hav (start :: (sortAscBy RideRequest.timestamp reqs).flatMap
        (fun r => [r.pickupLocation, r.dropoffLocation])) := by
  unfold calculateSequentialRouteDistance
  by_cases h : reqs.length = 0
  · rw [if_pos h]
    rw [List.length_eq_zero] at h
    subst h
    simp [sortAscBy, pathDist]
  · rw [if_neg h, seq_foldl_pathDist]
    rw [zero_add]

lemma metricsSeq_foldl_eq (hav : Hav) (requests : List RideRequest)
    (l : List Assignment) (t d : ℚ) (c : ℕ) :
    l.foldl (metricsSeqStep hav requests) (t, d, c) =
      (t + ((validAssignments l).map (assignmentRouteDist hav)).sum,
       d + ((validAssignments l).map (assignmentSequentialDist hav requests)).sum,
       c + ((validAssignments l).map (fun a => (matchedRequestsOf requests a).length)).sum) := by
  induction l generalizing t d c with
  | nil => simp [validAssignments]
  | cons a l ih =>
      by_cases h : a.route.length < 2
      · have hv : validAssignments (a :: l) = validAssignments l := by
          simp [validAssignments, List.filter_cons, Nat.not_le.mpr h]
        rw [List.foldl_cons, metricsSeqStep, if_pos h, hv, ih]
      · have h2 : 2 ≤ a.route.length := Nat.not_lt.mp h
        have hv : validAssignments (a :: l) = a :: validAssignments l := by
          simp [validAssignments, List.filter_cons, h2]
        rw [List.foldl_cons, metricsSeqStep, if_neg h, ih, hv]
        simp only [List.map_cons, List.sum_cons, assignmentRouteDist, assignmentSequentialDist]
        refine congrArg₂ Prod.mk (by ring) (congrArg₂ Prod.mk (by ring) (by omega))

/-- C3: the orchestrator's metric computation (the `calculateMetrics`
revision bundled in App.tsx and wired into the App component) returns
averageDetourDistance = (Σ optimized route distances − Σ sequential-tour
baseline distances) / (number of assigned requests), and
totalDistanceSaved = Σ sequential-tour baseline distances − Σ optimized
route distances, where each assignment's baseline is the one-by-one
pickup/dropoff tour over its matched requests sorted by timestamp,
starting from the vehicle's start location (route[0]) — the same baseline
in both formulas. -/
theorem metrics_sequential_baseline (hav : Hav) (requests : List RideRequest)
    (assignments : List Assignment) :
    (0 < ((validAssignments assignments).map (fun a => (matchedRequestsOf requests a).length)).sum →
      (calculateMetricsSequential hav requests assignments).averageDetourDistance =
        (((validAssignments assignments).map (assignmentRouteDist hav)).sum -
          ((validAssignments assignments).map (fun a => pathDist hav (a.route.headD ⟨0, 0⟩ ::
            (sortAscBy RideRequest.timestamp (matchedRequestsOf requests a)).flatMap
              (fun r => [r.pickupLocation, r.dropoffLocation])))).sum) /
          ((((validAssignments assignments).map (fun a => (matchedRequestsOf requests a).length)).sum : ℕ) : ℚ)) ∧
    (calculateMetricsSequential hav requests assignments).totalDistanceSaved =
      ((validAssignments assignments).map (fun a => pathDist hav (a.route.headD ⟨0, 0⟩ ::
        (sortAscBy RideRequest.timestamp (matchedRequestsOf requests a)).flatMap
          (fun r => [r.pickupLocation, r.dropoffLocation])))).sum -
        ((validAssignments assignments).map (assignmentRouteDist hav)).sum := by
  have hmap : (validAssignments assignments).map (assignmentSequentialDist hav requests) =
      (validAssignments assignments).map (fun a => pathDist hav (a.route.headD ⟨0, 0⟩ ::
        (sortAscBy RideRequest.timestamp (matchedRequestsOf requests a)).flatMap
          (fun r => [r.pickupLocation, r.dropoffLocation]))) :=
    List.map_congr_left (fun a _ =>
      calculateSequentialRouteDistance_eq_pathDist hav (a.route.headD ⟨0, 0⟩)
        (matchedRequestsOf requests a))
  constructor
  · intro h
    unfold calculateMetricsSequential
    rw [metricsSeq_foldl_eq]
    simp only [zero_add]
    rw [if_pos h, hmap]
  · unfold calculateMetricsSequential
    rw [metricsSeq_foldl_eq]
    simp only [zero_add]
    rw [hmap]

/-- Witness for C3 at a concrete one-request input (one matched request,
so the division branch is exercised). -/
theorem metrics_sequential_baseline_witness :
    0 < ((validAssignments [mCexAssignment]).map
          (fun a => (matchedRequestsOf [mCexRequest] a).length)).sum ∧
    (calculateMetricsSequential flatDist [mCexRequest] [mCexAssignment]).averageDetourDistance =
      (((validAssignments [mCexAssignment]).map (assignmentRouteDist flatDist)).sum -
        ((validAssignments [mCexAssignment]).map (fun a => pathDist flatDist (a.route.headD ⟨0, 0⟩ ::
          (sortAscBy RideRequest.timestamp (matchedRequestsOf [mCexRequest] a)).flatMap
            (fun r => [r.pickupLocation, r.dropoffLocation])))).sum) /
        ((((validAssignments [mCexAssignment]).map
            (fun a => (matchedRequestsOf [mCexRequest] a).length)).sum : ℕ) : ℚ) :=
  ⟨by decide,
   (metrics_sequential_baseline flatDist [mCexRequest] [mCexAssignment]).1 (by decide)⟩

/-- The `services/SimulationService` revision uses the direct
vehicle-to-dropoff baseline instead, consistently in both formulas:
averageDetourDistance = (Σ optimized route distance − Σ direct distance)
/ (number of matched requests over non-degenerate assignments), and
totalDistanceSaved = Σ direct distance − Σ optimized route distance. -/
theorem metrics_direct_baseline (hav : Hav) (requests : List RideRequest)
    (assignments : List Assignment) :
    (0 < ((validAssignments assignments).map (fun a => (matchedRequestsOf requests a).length)).sum →
      (calculateMetrics hav requests assignments).averageDetourDistance =
        (((validAssignments assignments).map (assignmentRouteDist hav)).sum -
          ((validAssignments assignments).map (assignmentDirectDist hav requests)).sum) /
          ((((validAssignments assignments).map (fun a => (matchedRequestsOf requests a).length)).sum : ℕ) : ℚ)) ∧
    (calculateMetrics hav requests assignments).totalDistanceSaved =
      ((validAssignments assignments).map (assignmentDirectDist hav requests)).sum -
        ((validAssignments assignments).map (assignmentRouteDist hav)).sum := by
  constructor
  · intro h
    unfold calculateMetrics
    rw [metrics_foldl_eq]
    simp only [zero_add]
    rw [if_pos h]
  · unfold calculateMetrics
    rw [metrics_foldl_eq]
    simp only [zero_add]

/-- The direct-baseline characterization exercised at a concrete input
(one matched request, so the division branch is taken). -/
theorem metrics_direct_baseline_witness :
    0 < ((validAssignments [mCexAssignment]).map
          (fun a => (matchedRequestsOf [mCexRequest] a).length)).sum ∧
    (calculateMetrics flatDist [mCexRequest] [mCexAssignment]).averageDetourDistance =
      (((validAssignments [mCexAssignment]).map (assignmentRouteDist flatDist)).sum -
        ((validAssignments [mCexAssignment]).map (assignmentDirectDist flatDist [mCexRequest])).sum) /
        ((((validAssignments [mCexAssignment]).map
            (fun a => (matchedRequestsOf [mCexRequest] a).length)).sum : ℕ) : ℚ) :=
  ⟨by decide, (metrics_direct_baseline flatDist [mCexRequest] [mCexAssignment]).1 (by decide)⟩

/-- C7: percentageMatched is the number of distinct matched request ids
(the union of requestIds across assignments, duplicates counted once)
divided by the total number of requests, times 100. -/
theorem percentageMatched_union_card (hav : Hav) (requests : List RideRequest)
    (assignments : List Assignment) (h : requests ≠ []) :
    (calculateMetrics hav requests assignments).percentageMatched =
      (((assignments.flatMap Assignment.requestIds).toFinset.card : ℕ) : ℚ) /
        (requests.length : ℚ) * 100 := by
  unfold calculateMetrics
  rw [List.card_toFinset]
  simp only [if_pos (List.length_pos.mpr h)]

/-- Witness for C7 at a concrete input where the same request id occurs in
two assignments (counted once by the union). -/
theorem percentageMatched_union_card_witness :
    ([mCexRequest, ⟨"s", ⟨0, 0⟩, ⟨0, 0⟩, 0⟩] : List RideRequest) ≠ [] ∧
    (calculateMetrics flatDist [mCexRequest, ⟨"s", ⟨0, 0⟩, ⟨0, 0⟩, 0⟩]
        [mCexAssignment, mCexAssignment]).percentageMatched =
      ((([mCexAssignment, mCexAssignment].flatMap Assignment.requestIds).toFinset.card : ℕ) : ℚ) /
        (([mCexRequest, ⟨"s", ⟨0, 0⟩, ⟨0, 0⟩, 0⟩] : List RideRequest).length : ℚ) * 100 :=
  ⟨by decide,
   percentageMatched_union_card flatDist _ [mCexAssignment, mCexAssignment] (by decide)⟩

/-- C10: the metric computation guards both divisions — an empty request
list yields percentageMatched = 0, and when no assignment covers any
request the average detour is 0; the embedded function is total, so no
exception is raised on either degenerate input. -/
theorem metrics_no_division_by_zero (hav : Hav) (requests : List RideRequest)
    (assignments : List Assignment) :
    (requests = [] → (calculateMetrics hav requests assignments).percentageMatched = 0) ∧
    ((∀ a ∈ assignments, matchedRequestsOf requests a = []) →
      (calculateMetrics hav requests assignments).averageDetourDistance = 0) := by
  constructor
  · intro h
    subst h
    unfold calculateMetrics
    simp
  · intro h
    unfold calculateMetrics
    rw [metrics_foldl_eq]
    have hcnt : ((validAssignments assignments).map
        (fun a => (matchedRequestsOf requests a).length)).sum = 0 := by
      rw [List.sum_eq_zero]
      intro x hx
      rcases List.mem_map.mp hx with ⟨a, ha, rfl⟩
      rw [h a (List.mem_of_mem_filter ha)]
      rfl
    simp [hcnt]

/-- Witness for C10: an empty request list and a covering-free assignment
list both return 0 without raising. -/
theorem metrics_no_division_by_zero_witness :
    (calculateMetrics flatDist [] [mCexAssignment]).percentageMatched = 0 ∧
    (calculateMetrics flatDist [⟨"z", ⟨0, 0⟩, ⟨0, 0⟩, 0⟩] [⟨"v", ["y"], []⟩]).averageDetourDistance = 0 :=
  ⟨(metrics_no_division_by_zero flatDist [] [mCexAssignment]).1 rfl,
   (metrics_no_division_by_zero flatDist [⟨"z", ⟨0, 0⟩, ⟨0, 0⟩, 0⟩] [⟨"v", ["y"], []⟩]).2
     (by decide)⟩

/-! ## DBSCANClustering (services/clustering/DBSCANClustering.ts) -/

instance : Inhabited Coordinates := ⟨⟨0, 0⟩⟩

instance : Inhabited RideRequest := ⟨⟨"", default, default, 0⟩⟩

instance : Inhabited Vehicle := ⟨⟨"", default, 0, 0⟩⟩

instance : Inhabited Cluster := ⟨⟨"", default, []⟩⟩

/-- `ClusterParams` from `services/interfaces.ts`. -/
structure ClusterParams where
  timeWindowMinutes : ℚ
  maxDistanceKm : ℚ
deriving DecidableEq, Repr

/-- Classification constant `UNCLASSIFIED` of `DBSCANClustering`. -/
def UNCLASSIFIED : ℤ := -1

/-- Classification constant `NOISE` of `DBSCANClustering`. -/
def NOISE : ℤ := -2

/-- `calculateSpatioTemporalDistance`: normalized 80/20 blend of spatial
distance (against `min(MAX_SPATIAL_DISTANCE_KM = 4, maxDistanceKm)`) and
temporal distance in minutes (against `MAX_TEMPORAL_DISTANCE_MIN = 12`). -/
def calculateSpatioTemporalDistance (hav : Hav) (request1 request2 : RideRequest)
    (maxDistanceKm : ℚ) : ℚ :=
  let spatialDistance := hav request1.pickupLocation request2.pickupLocation
  let temporalDistance := |request1.timestamp - request2.timestamp| / (60 * 1000)
  let spatialThreshold := min 4 maxDistanceKm
  let normalizedSpatialDistance := min (spatialDistance / spatialThreshold) 1
  let normalizedTemporalDistance := min (temporalDistance / 12) 1
  normalizedSpatialDistance * (8 / 10) + normalizedTemporalDistance * (2 / 10)

/-- `regionQuery`: indices of all other requests within `epsilon` combined
distance of the request at `pointIndex`. -/
def regionQuery (hav : Hav) (pointIndex : ℕ) (requests : List RideRequest)
    (epsilon : ℚ) (params : ClusterParams) : List ℕ :=
  (List.range requests.length).filter (fun i =>
    decide (i ≠ pointIndex ∧
      calculateSpatioTemporalDistance hav (requests.getD pointIndex default)
        (requests.getD i default) params.maxDistanceKm ≤ epsilon))

/-- `mergeArrays`: append the elements of the second list not already
present (the JS `includes` duplicate guard). -/
def mergeArrays (arr1 arr2 : List ℕ) : List ℕ :=
  arr2.foldl (fun result value => if value ∈ result then result else result ++ [value]) arr1

/-- Pointwise update of a classification map (the JS
`classifications[i] = v` array write; the array has fixed length, so a
function `ℕ → ℤ` models it exactly on the indices that are ever read). -/
def setCls (cls : ℕ → ℤ) (i : ℕ) (v : ℤ) : ℕ → ℤ :=
  fun j => if j = i then v else cls j

/-- The `while (seedIndex < seeds.length)` loop of `expandCluster`.  The
`fuel` argument bounds the number of iterations: the seeds list always
holds distinct indices below the request count (regionQuery returns
distinct indices and mergeArrays preserves distinctness), so the JS loop
performs at most `requests.length` iterations and the callers pass fuel
`requests.length + 1`, which the loop can therefore never exhaust. -/
def expandLoop (nb : ℕ → List ℕ) (minPts : ℕ) (cid : ℤ) :
    ℕ → List ℕ → ℕ → (ℕ → ℤ) → (ℕ → ℤ)
  | 0, _, _, cls => cls
  | fuel + 1, seeds, seedIndex, cls =>
    if h : seedIndex < seeds.length then
      let currentPointIndex := seeds.get ⟨seedIndex, h⟩
      let cls1 := if cls currentPointIndex = NOISE then setCls cls currentPointIndex cid else cls
      if cls1 currentPointIndex = UNCLASSIFIED then
        let cls2 := setCls cls1 currentPointIndex cid
        let currentNeighbors := nb currentPointIndex
        if minPts ≤ currentNeighbors.length then
          expandLoop nb minPts cid fuel (mergeArrays seeds currentNeighbors) (seedIndex + 1) cls2
        else
          expandLoop nb minPts cid fuel seeds (seedIndex + 1) cls2
      else
        expandLoop nb minPts cid fuel seeds (seedIndex + 1) cls1
    else cls

/-- The main `for (let i = 0; ...)` scan of `cluster`: classify each still
unclassified point as noise or seed a new cluster and expand it. -/
def dbscanMain (nb : ℕ → List ℕ) (minPts n : ℕ) :
    List ℕ → (ℕ → ℤ) × ℕ → (ℕ → ℤ) × ℕ
  | [], st => st
  | i :: rest, (cls, clusterId) =>
    if cls i ≠ UNCLASSIFIED then dbscanMain nb minPts n rest (cls, clusterId)
    else
      let neighborIndices := nb i
      if neighborIndices.length < minPts then
        dbscanMain nb minPts n rest (setCls cls i NOISE, clusterId)
      else
        let clusterId1 := clusterId + 1
        let cls1 := setCls cls i (clusterId1 : ℤ)
        let cls2 := expandLoop nb minPts (clusterId1 : ℤ) (n + 1) neighborIndices 0 cls1
        dbscanMain nb minPts n rest (cls2, clusterId1)

/-- The adaptive epsilon of `cluster`:
`min(0.22 * (1 + requests.length / 100), 0.35)`. -/
def dbscanEpsilon (n : ℕ) : ℚ := min ((22 / 100) * (1 + (n : ℚ) / 100)) (35 / 100)

/-- `minPoints = 2` of `cluster`. -/
def dbscanMinPoints : ℕ := 2

/-- Run the classification phase of `cluster` on the already filtered
request list; returns the final classification map and cluster count. -/
def dbscanClassify (hav : Hav) (f : List RideRequest) (params : ClusterParams) :
    (ℕ → ℤ) × ℕ :=
  let epsilon := dbscanEpsilon f.length
  dbscanMain (fun i => regionQuery hav i f epsilon params) dbscanMinPoints f.length
    (List.range f.length) (fun _ => UNCLASSIFIED, 0)

/-- `classifications.map((val, idx) => ({val, idx})).filter(v = cId).map(idx => filteredRequests[idx])`:
the member requests of one classification value, via the value/request
pairing in index order. -/
def groupRequests (cls : List ℤ) (f : List RideRequest) (v : ℤ) : List RideRequest :=
  ((cls.zip f).filter (fun p => decide (p.1 = v))).map Prod.snd

/-- A cluster before its uuid is drawn. -/
structure PreCluster where
  centroid : Coordinates
  requests : List RideRequest
deriving DecidableEq, Repr

/-- Average of the member pickup locations (the `reduce`-sum divided by
the member count, per coordinate). -/
def clusterCentroid (clusterRequests : List RideRequest) : Coordinates :=
  ⟨(clusterRequests.foldl (fun sum r => sum + r.pickupLocation.lat) 0) / clusterRequests.length,
   (clusterRequests.foldl (fun sum r => sum + r.pickupLocation.lng) 0) / clusterRequests.length⟩

/-- The final classification list `classifications` of `cluster`, read
back from the classification map at indices 0..n-1. -/
def dbscanClsList (hav : Hav) (f : List RideRequest) (params : ClusterParams) : List ℤ :=
  (List.range f.length).map (dbscanClassify hav f params).1

/-- The member lists of the clusters with ids 1..clusterId, in id order
(the `for (let cId = 1; cId <= clusterId; cId++)` loop of `cluster`). -/
def dbscanGroups (hav : Hav) (f : List RideRequest) (params : ClusterParams) :
    List (List RideRequest) :=
  (List.range (dbscanClassify hav f params).2).map
    (fun k : ℕ => groupRequests (dbscanClsList hav f params) f ((k : ℤ) + 1))

/-- The clusters pushed before the final verification pass: one cluster
per non-empty classification group (with the mean-pickup centroid),
followed by one singleton cluster per noise point. -/
def dbscanBaseClusters (hav : Hav) (f : List RideRequest) (params : ClusterParams) :
    List PreCluster :=
  (((dbscanGroups hav f params).filter (fun g => decide (g ≠ []))).map
    (fun g => PreCluster.mk (clusterCentroid g) g)) ++
  ((groupRequests (dbscanClsList hav f params) f NOISE).map
    (fun r => PreCluster.mk r.pickupLocation [r]))

/-- The cluster-construction phase of `cluster` on the filtered list:
the base clusters, then the final-verification pass that creates
emergency singleton clusters for unaccounted requests (requests whose id
is in no pushed cluster) whenever the counts do not reconcile. -/
def dbscanPreClusters (hav : Hav) (f : List RideRequest) (params : ClusterParams) :
    List PreCluster :=
  if 0 < (f.length : ℤ) -
      (((((dbscanBaseClusters hav f params).map (fun c => c.requests.length)).sum : ℕ)) : ℤ) then
    dbscanBaseClusters hav f params ++
      (f.filter (fun r => decide (r.id ∉
        (dbscanBaseClusters hav f params).flatMap (fun c => c.requests.map RideRequest.id)))).map
        (fun r => PreCluster.mk r.pickupLocation [r])
  else dbscanBaseClusters hav f params

/-- Sequential assignment of the uuid stream to the constructed clusters,
in push order. -/
def assignIds (ids : ℕ → String) : ℕ → List PreCluster → List Cluster
  | _, [] => []
  | k, c :: cs => ⟨ids k, c.centroid, c.requests⟩ :: assignIds ids (k + 1) cs

/-- The time-window filter at the top of `cluster`:
`requests.filter(request => request.timestamp >= now - timeWindowMinutes*60*1000)`. -/
def timeFilteredRequests (requests : List RideRequest) (params : ClusterParams)
    (now : ℚ) : List RideRequest :=
  requests.filter (fun request => decide (now - params.timeWindowMinutes * 60 * 1000 ≤ request.timestamp))

/-- `DBSCANClustering.cluster`, with the clock read and the uuid draws as
explicit parameters. -/
def DBSCANCluster (hav : Hav) (requests : List RideRequest) (params : ClusterParams)
    (now : ℚ) (ids : ℕ → String) : List Cluster :=
  let filteredRequests := timeFilteredRequests requests params now
  if filteredRequests.length = 0 then []
  else assignIds ids 0 (dbscanPreClusters hav filteredRequests params)

lemma setCls_apply (cls : ℕ → ℤ) (i : ℕ) (v : ℤ) (j : ℕ) :
    setCls cls i v j = cls j ∨ setCls cls i v j = v := by
  unfold setCls
  by_cases h : j = i <;> simp [h]

lemma expandLoop_apply (nb : ℕ → List ℕ) (minPts : ℕ) (cid : ℤ) :
    ∀ (fuel : ℕ) (seeds : List ℕ) (seedIndex : ℕ) (cls : ℕ → ℤ) (j : ℕ),
      expandLoop nb minPts cid fuel seeds seedIndex cls j = cls j ∨
        expandLoop nb minPts cid fuel seeds seedIndex cls j = cid := by
  intro fuel
  induction fuel with
  | zero => intro seeds seedIndex cls j; exact Or.inl rfl
  | succ fuel ih =>
      intro seeds seedIndex cls j
      rw [expandLoop]
      by_cases h : seedIndex < seeds.length
      · rw [dif_pos h]
        set p := seeds.get ⟨seedIndex, h⟩ with hp
        by_cases h1 : cls p = NOISE
        · simp only [if_pos h1]
          by_cases h2 : setCls cls p cid p = UNCLASSIFIED
          · simp only [if_pos h2]
            by_cases h3 : minPts ≤ (nb p).length
            · simp only [if_pos h3]
              rcases ih (mergeArrays seeds (nb p)) (seedIndex + 1) (setCls (setCls cls p cid) p cid) j with h4 | h4
              · rw [h4]
                rcases setCls_apply (setCls cls p cid) p cid j with h5 | h5
                · rw [h5]; rcases setCls_apply cls p cid j with h6 | h6
                  · exact Or.inl h6
                  · exact Or.inr h6
                · exact Or.inr h5
              · exact Or.inr h4
            · simp only [if_neg h3]
              rcases ih seeds (seedIndex + 1) (setCls (setCls cls p cid) p cid) j with h4 | h4
              · rw [h4]
                rcases setCls_apply (setCls cls p cid) p cid j with h5 | h5
                · rw [h5]; rcases setCls_apply cls p cid j with h6 | h6
                  · exact Or.inl h6
                  · exact Or.inr h6
                · exact Or.inr h5
              · exact Or.inr h4
          · simp only [if_neg h2]
            rcases ih seeds (seedIndex + 1) (setCls cls p cid) j with h4 | h4
            · rw [h4]
              rcases setCls_apply cls p cid j with h5 | h5
              · exact Or.inl h5
              · exact Or.inr h5
            · exact Or.inr h4
        · simp only [if_neg h1]
          by_cases h2 : cls p = UNCLASSIFIED
          · simp only [if_pos h2]
            by_cases h3 : minPts ≤ (nb p).length
            · simp only [if_pos h3]
              rcases ih (mergeArrays seeds (nb p)) (seedIndex + 1) (setCls cls p cid) j with h4 | h4
              · rw [h4]
                rcases setCls_apply cls p cid j with h5 | h5
                · exact Or.inl h5
                · exact Or.inr h5
              · exact Or.inr h4
            · simp only [if_neg h3]
              rcases ih seeds (seedIndex + 1) (setCls cls p cid) j with h4 | h4
              · rw [h4]
                rcases setCls_apply cls p cid j with h5 | h5
                · exact Or.inl h5
                · exact Or.inr h5
              · exact Or.inr h4
          · simp only [if_neg h2]
            exact ih seeds (seedIndex + 1) cls j
      · rw [dif_neg h]
        exact Or.inl rfl

/-- Invariant of the classification map: every entry is unclassified,
noise, or a cluster id between 1 and the current cluster count. -/
def ValidCls (cls : ℕ → ℤ) (clusterId : ℕ) : Prop :=
  ∀ j, cls j = UNCLASSIFIED ∨ cls j = NOISE ∨ ∃ k : ℕ, 1 ≤ k ∧ k ≤ clusterId ∧ cls j = (k : ℤ)

lemma validCls_mono {cls : ℕ → ℤ} {cid cid' : ℕ} (h : ValidCls cls cid) (hle : cid ≤ cid') :
    ValidCls cls cid' := by
  intro j
  rcases h j with h1 | h1 | ⟨k, hk1, hk2, hk3⟩
  · exact Or.inl h1
  · exact Or.inr (Or.inl h1)
  · exact Or.inr (Or.inr ⟨k, hk1, le_trans hk2 hle, hk3⟩)

lemma succCast_ne_unclassified (k : ℕ) : ((k + 1 : ℕ) : ℤ) ≠ UNCLASSIFIED := by
  unfold UNCLASSIFIED
  omega

lemma dbscanMain_spec (nb : ℕ → List ℕ) (minPts n : ℕ) :
    ∀ (todo : List ℕ) (cls : ℕ → ℤ) (cid : ℕ), ValidCls cls cid →
      ValidCls (dbscanMain nb minPts n todo (cls, cid)).1 (dbscanMain nb minPts n todo (cls, cid)).2 ∧
      cid ≤ (dbscanMain nb minPts n todo (cls, cid)).2 ∧
      (∀ j, cls j ≠ UNCLASSIFIED → (dbscanMain nb minPts n todo (cls, cid)).1 j ≠ UNCLASSIFIED) ∧
      (∀ j ∈ todo, (dbscanMain nb minPts n todo (cls, cid)).1 j ≠ UNCLASSIFIED) := by
  intro todo
  induction todo with
  | nil =>
      intro cls cid hv
      exact ⟨hv, le_refl _, fun j h => h, fun j h => absurd h (List.not_mem_nil j)⟩
  | cons i rest ih =>
      intro cls cid hv
      rw [dbscanMain]
      by_cases hi : cls i ≠ UNCLASSIFIED
      · rw [if_pos hi]
        rcases ih cls cid hv with ⟨h1, h2, h3, h4⟩
        refine ⟨h1, h2, h3, ?_⟩
        intro j hj
        rcases List.mem_cons.mp hj with rfl | hj
        · exact h3 j hi
        · exact h4 j hj
      · rw [if_neg hi]
        by_cases hn : (nb i).length < minPts
        · rw [if_pos hn]
          have hv1 : ValidCls (setCls cls i NOISE) cid := by
            intro j
            rcases setCls_apply cls i NOISE j with h | h
            · rw [h]; exact hv j
            · rw [h]; exact Or.inr (Or.inl rfl)
          rcases ih (setCls cls i NOISE) cid hv1 with ⟨h1, h2, h3, h4⟩
          have hpres : ∀ j, cls j ≠ UNCLASSIFIED → setCls cls i NOISE j ≠ UNCLASSIFIED := by
            intro j hj
            rcases setCls_apply cls i NOISE j with h | h
            · rw [h]; exact hj
            · rw [h]; unfold NOISE UNCLASSIFIED; omega
          refine ⟨h1, h2, fun j hj => h3 j (hpres j hj), ?_⟩
          intro j hj
          rcases List.mem_cons.mp hj with rfl | hj
          · refine h3 j ?_
            simp [setCls, NOISE, UNCLASSIFIED]
          · exact h4 j hj
        · rw [if_neg hn]
          set cid1 := cid + 1 with hcid1
          set cls1 := setCls cls i ((cid1 : ℕ) : ℤ) with hcls1
          set cls2 := expandLoop nb minPts ((cid1 : ℕ) : ℤ) (n + 1) (nb i) 0 cls1 with hcls2
          have hv1 : ValidCls cls1 cid1 := by
            intro j
            rcases setCls_apply cls i ((cid1 : ℕ) : ℤ) j with h | h
            · rw [hcls1, h]; exact validCls_mono hv (Nat.le_succ cid) j
            · rw [hcls1, h]; exact Or.inr (Or.inr ⟨cid1, Nat.succ_le_succ (Nat.zero_le cid), le_refl _, rfl⟩)
          have hv2 : ValidCls cls2 cid1 := by
            intro j
            rcases expandLoop_apply nb minPts ((cid1 : ℕ) : ℤ) (n + 1) (nb i) 0 cls1 j with h | h
            · rw [hcls2, h]; exact hv1 j
            · rw [hcls2, h]; exact Or.inr (Or.inr ⟨cid1, Nat.succ_le_succ (Nat.zero_le cid), le_refl _, rfl⟩)
          have hpres1 : ∀ j, cls j ≠ UNCLASSIFIED → cls1 j ≠ UNCLASSIFIED := by
            intro j hj
            rcases setCls_apply cls i ((cid1 : ℕ) : ℤ) j with h | h
            · rw [hcls1, h]; exact hj
            · rw [hcls1, h]; exact succCast_ne_unclassified cid
          have hpres2 : ∀ j, cls1 j ≠ UNCLASSIFIED → cls2 j ≠ UNCLASSIFIED := by
            intro j hj
            rcases expandLoop_apply nb minPts ((cid1 : ℕ) : ℤ) (n + 1) (nb i) 0 cls1 j with h | h
            · rw [hcls2, h]; exact hj
            · rw [hcls2, h]; exact succCast_ne_unclassified cid
          rcases ih cls2 cid1 hv2 with ⟨h1, h2, h3, h4⟩
          refine ⟨h1, le_trans (Nat.le_succ cid) h2, fun j hj => h3 j (hpres2 j (hpres1 j hj)), ?_⟩
          intro j hj
          rcases List.mem_cons.mp hj with rfl | hj
          · refine h3 j (hpres2 j ?_)
            rw [hcls1]
            have hset : setCls cls j ((cid1 : ℕ) : ℤ) j = ((cid1 : ℕ) : ℤ) := by
              simp [setCls]
            rw [hset, hcid1]
            exact succCast_ne_unclassified cid
          · exact h4 j hj

lemma count_filter_key {α β : Type} [DecidableEq α] [DecidableEq β]
    (key : α → β) (l : List α) (v : β) (a : α) :
    (l.filter (fun x => decide (key x = v))).count a = if key a = v then l.count a else 0 := by
  induction l with
  | nil => simp
  | cons x l ih =>
      rw [List.filter_cons]
      by_cases hx : key x = v
      · rw [if_pos (by simpa using hx)]
        rw [List.count_cons, ih]
        by_cases ha : key a = v
        · rw [if_pos ha, if_pos ha, List.count_cons]
        · rw [if_neg ha, if_neg ha]
          have hax : ¬(x == a) = true := by
            intro hcontra
            exact ha (by rw [← eq_of_beq hcontra]; exact hx)
          simp [hax]
      · rw [if_neg (by simpa using hx), ih]
        by_cases ha : key a = v
        · rw [if_pos ha, if_pos ha, List.count_cons]
          have hax : ¬(x == a) = true := by
            intro hcontra
            exact hx (by rw [eq_of_beq hcontra]; exact ha)
          simp [hax]
        · rw [if_neg ha, if_neg ha]

lemma sum_map_ite_count {β : Type} [DecidableEq β] (vs : List β) (x : β) (c : ℕ) :
    (vs.map (fun v => if x = v then c else 0)).sum = vs.count x * c := by
  induction vs with
  | nil => simp
  | cons v vs ih =>
      rw [List.map_cons, List.sum_cons, ih, List.count_cons]
      by_cases h : x = v
      · rw [if_pos h]
        have hb : (v == x) = true := beq_iff_eq.mpr h.symm
        rw [if_pos hb, Nat.add_mul, Nat.one_mul, Nat.add_comm (List.count x vs * c) c]
      · rw [if_neg h]
        have hb : ¬(v == x) = true := fun hc => h (eq_of_beq hc).symm
        rw [if_neg hb, Nat.add_zero, Nat.zero_add]

lemma flatten_key_groups_perm {α β : Type} [DecidableEq α] [DecidableEq β]
    (key : α → β) (l : List α) (vs : List β) (hn : vs.Nodup)
    (hk : ∀ a ∈ l, key a ∈ vs) :
    ((vs.map (fun v => l.filter (fun x => decide (key x = v)))).flatten).Perm l := by
  rw [List.perm_iff_count]
  intro a
  rw [List.count_flatten, List.map_map]
  have h1 : (List.count a ∘ fun v => l.filter fun x => decide (key x = v)) =
      fun v => if key a = v then l.count a else 0 :=
    funext fun v => count_filter_key key l v a
  rw [h1, sum_map_ite_count]
  by_cases ha : a ∈ l
  · rw [List.count_eq_one_of_mem hn (hk a ha), Nat.one_mul]
  · rw [List.count_eq_zero.mpr ha, Nat.mul_zero]

/-- The classification values that occur after the main scan: cluster ids
1..clusterId and the noise marker. -/
def dbscanValues (clusterId : ℕ) : List ℤ :=
  (List.range clusterId).map (fun k : ℕ => (k : ℤ) + 1) ++ [NOISE]

lemma dbscanValues_nodup (clusterId : ℕ) : (dbscanValues clusterId).Nodup := by
  rw [dbscanValues, List.nodup_append]
  have hinj : Function.Injective (fun k : ℕ => (k : ℤ) + 1) := fun a b h => by
    simpa using h
  refine ⟨List.Nodup.map hinj (List.nodup_range clusterId), List.nodup_singleton _, ?_⟩
  intro x hx hmem
  rcases List.mem_map.mp hx with ⟨k, _, rfl⟩
  have h2 := List.mem_singleton.mp hmem
  unfold NOISE at h2
  omega

lemma dbscanClassify_total (hav : Hav) (f : List RideRequest) (params : ClusterParams) :
    ∀ j < f.length,
      (dbscanClassify hav f params).1 j = NOISE ∨
      ∃ k : ℕ, 1 ≤ k ∧ k ≤ (dbscanClassify hav f params).2 ∧
        (dbscanClassify hav f params).1 j = (k : ℤ) := by
  intro j hj
  have hinit : ValidCls (fun _ => UNCLASSIFIED) 0 := fun _ => Or.inl rfl
  have hspec := dbscanMain_spec
    (fun i => regionQuery hav i f (dbscanEpsilon f.length) params) dbscanMinPoints f.length
    (List.range f.length) (fun _ => UNCLASSIFIED) 0 hinit
  have hne : (dbscanClassify hav f params).1 j ≠ UNCLASSIFIED :=
    hspec.2.2.2 j (List.mem_range.mpr hj)
  rcases hspec.1 j with h | h | ⟨k, hk1, hk2, hk3⟩
  · exact absurd h hne
  · exact Or.inl h
  · exact Or.inr ⟨k, hk1, hk2, hk3⟩

lemma flatten_filter_ne_nil {α : Type} [DecidableEq α] (gs : List (List α)) :
    ((gs.filter (fun g => decide (g ≠ []))).flatten) = gs.flatten := by
  induction gs with
  | nil => rfl
  | cons g gs ih =>
      rw [List.filter_cons]
      by_cases h : g = []
      · rw [if_neg (by simpa using h)]
        rw [List.flatten_cons, ih, h, List.nil_append]
      · rw [if_pos (by simpa using h)]
        rw [List.flatten_cons, List.flatten_cons, ih]

lemma flatten_map_singleton {α : Type} (l : List α) :
    (l.map (fun a => ([a] : List α))).flatten = l := by
  induction l with
  | nil => rfl
  | cons a l ih =>
      rw [List.map_cons, List.flatten_cons, ih]
      rfl

lemma dbscanBase_flatMap (hav : Hav) (f : List RideRequest) (params : ClusterParams) :
    (dbscanBaseClusters hav f params).flatMap PreCluster.requests =
      ((dbscanValues (dbscanClassify hav f params).2).map
        (fun v => groupRequests (dbscanClsList hav f params) f v)).flatten := by
  unfold dbscanBaseClusters
  rw [List.flatMap_append, List.flatMap_def, List.map_map, List.flatMap_def, List.map_map]
  have h1 : (PreCluster.requests ∘ fun g => PreCluster.mk (clusterCentroid g) g) =
      id (α := List RideRequest) := rfl
  have h2 : (PreCluster.requests ∘ fun r : RideRequest => PreCluster.mk r.pickupLocation [r]) =
      fun r : RideRequest => ([r] : List RideRequest) := rfl
  rw [h1, h2, List.map_id, flatten_filter_ne_nil, flatten_map_singleton]
  rw [dbscanValues, List.map_append, List.flatten_append, List.map_map]
  have h3 : ((fun v => groupRequests (dbscanClsList hav f params) f v) ∘
      fun k : ℕ => (k : ℤ) + 1) =
      fun k : ℕ => groupRequests (dbscanClsList hav f params) f ((k : ℤ) + 1) := rfl
  rw [h3]
  simp only [List.map_cons, List.map_nil]
  have h4 : ([groupRequests (dbscanClsList hav f params) f NOISE] :
      List (List RideRequest)).flatten = groupRequests (dbscanClsList hav f params) f NOISE := by
    rw [List.flatten_cons]
    exact List.append_nil _
  rw [h4]
  rfl

lemma dbscanBase_perm (hav : Hav) (f : List RideRequest) (params : ClusterParams) :
    ((dbscanBaseClusters hav f params).flatMap PreCluster.requests).Perm f := by
  rw [dbscanBase_flatMap]
  have hkey : ∀ p ∈ ((dbscanClsList hav f params).zip f),
      p.1 ∈ dbscanValues (dbscanClassify hav f params).2 := by
    intro p hp
    have h1 := (List.of_mem_zip hp).1
    rcases List.mem_map.mp h1 with ⟨j, hj, hval⟩
    have hjn := List.mem_range.mp hj
    rcases dbscanClassify_total hav f params j hjn with h | ⟨k, hk1, hk2, hk3⟩
    · rw [dbscanValues]
      apply List.mem_append_right
      rw [← hval, h]
      exact List.mem_singleton.mpr rfl
    · rw [dbscanValues]
      apply List.mem_append_left
      refine List.mem_map.mpr ⟨k - 1, List.mem_range.mpr (by omega), ?_⟩
      rw [← hval, hk3]
      omega
  have hperm := flatten_key_groups_perm Prod.fst ((dbscanClsList hav f params).zip f)
    (dbscanValues (dbscanClassify hav f params).2)
    (dbscanValues_nodup (dbscanClassify hav f params).2) hkey
  have hmap := hperm.map Prod.snd
  rw [List.map_flatten, List.map_map] at hmap
  have hsnd : (List.map (Prod.snd (α := ℤ) (β := RideRequest)) ∘
      fun v => ((dbscanClsList hav f params).zip f).filter (fun p => decide (p.1 = v))) =
      fun v => groupRequests (dbscanClsList hav f params) f v := rfl
  rw [hsnd] at hmap
  have hzip : ((dbscanClsList hav f params).zip f).map Prod.snd = f := by
    apply List.map_snd_zip
    rw [dbscanClsList, List.length_map, List.length_range]
  rw [hzip] at hmap
  exact hmap

lemma dbscanPreClusters_eq_base (hav : Hav) (f : List RideRequest) (params : ClusterParams) :
    dbscanPreClusters hav f params = dbscanBaseClusters hav f params := by
  unfold dbscanPreClusters
  have hlen : ((dbscanBaseClusters hav f params).map (fun c => c.requests.length)).sum
      = f.length := by
    have h1 : ((dbscanBaseClusters hav f params).map (fun c => c.requests.length)).sum =
        ((dbscanBaseClusters hav f params).flatMap PreCluster.requests).length := by
      rw [List.flatMap_def, List.length_flatten, List.map_map]
      rfl
    rw [h1, (dbscanBase_perm hav f params).length_eq]
  rw [hlen]
  rw [if_neg (by omega)]

lemma dbscanPreClusters_perm (hav : Hav) (f : List RideRequest) (params : ClusterParams) :
    ((dbscanPreClusters hav f params).flatMap PreCluster.requests).Perm f := by
  rw [dbscanPreClusters_eq_base]
  exact dbscanBase_perm hav f params

lemma assignIds_flatMap (ids : ℕ → String) (cs : List PreCluster) :
    ∀ k : ℕ, (assignIds ids k cs).flatMap Cluster.requests = cs.flatMap PreCluster.requests := by
  induction cs with
  | nil => intro k; rfl
  | cons c cs ih =>
      intro k
      rw [assignIds, List.flatMap_cons, List.flatMap_cons, ih (k + 1)]

/-- Shared partition fact: the requests of the returned clusters are a
permutation of the time-filtered request list. -/
lemma dbscan_flatMap_perm (hav : Hav) (requests : List RideRequest) (params : ClusterParams)
    (now : ℚ) (ids : ℕ → String) :
    ((DBSCANCluster hav requests params now ids).flatMap Cluster.requests).Perm
      (timeFilteredRequests requests params now) := by
  unfold DBSCANCluster
  by_cases h : (timeFilteredRequests requests params now).length = 0
  · rw [if_pos h]
    rw [List.length_eq_zero] at h
    rw [h]
    exact List.Perm.refl _
  · rw [if_neg h, assignIds_flatMap]
    exact dbscanPreClusters_perm hav (timeFilteredRequests requests params now) params

/-- C1: for every request list and parameters (and any clock reading, uuid
draws, and distance function), the requests of the clusters returned by
`DBSCANClustering.cluster` are a permutation of the time-filtered request
list: every filtered request appears in exactly one cluster, none is
dropped, duplicated, or placed in two clusters. -/
theorem dbscan_partition (hav : Hav) (requests : List RideRequest) (params : ClusterParams)
    (now : ℚ) (ids : ℕ → String) :
    ((DBSCANCluster hav requests params now ids).flatMap Cluster.requests).Perm
      (timeFilteredRequests requests params now) :=
  dbscan_flatMap_perm hav requests params now ids

/-- C6: a request older than `timeWindowMinutes` before the current time
never appears in any cluster returned by `DBSCANClustering.cluster`. -/
theorem stale_request_never_clustered (hav : Hav) (requests : List RideRequest)
    (params : ClusterParams) (now : ℚ) (ids : ℕ → String) (r : RideRequest)
    (h : r.timestamp < now - params.timeWindowMinutes * 60 * 1000) :
    ∀ c ∈ DBSCANCluster hav requests params now ids, r ∉ c.requests := by
  intro c hc hr
  have hmem : r ∈ (DBSCANCluster hav requests params now ids).flatMap Cluster.requests :=
    List.mem_flatMap.mpr ⟨c, hc, hr⟩
  have hfil : r ∈ timeFilteredRequests requests params now :=
    ((dbscan_flatMap_perm hav requests params now ids).mem_iff).mp hmem
  have hpred : now - params.timeWindowMinutes * 60 * 1000 ≤ r.timestamp := by
    have hmemf := List.of_mem_filter hfil
    simpa using hmemf
  exact absurd hpred (not_le.mpr h)

/-- A request from before the time window, for the C6 witness. -/
def staleRequest : RideRequest := ⟨"old", ⟨0, 0⟩, ⟨0, 0⟩, -1000000⟩

/-- A request inside the time window. -/
def freshRequest : RideRequest := ⟨"new", ⟨1, 0⟩, ⟨2, 0⟩, 0⟩

/-- Concrete clustering parameters (15-minute window, 2 km). -/
def cexParams : ClusterParams := ⟨15, 2⟩

/-- Witness for C6: at time 0 with a 15-minute window, the request with
timestamp −1000000 ms is dropped and appears in no returned cluster. -/
theorem stale_request_never_clustered_witness :
    staleRequest.timestamp < 0 - cexParams.timeWindowMinutes * 60 * 1000 ∧
    ∀ c ∈ DBSCANCluster flatDist [staleRequest, freshRequest] cexParams 0 (fun _ => "u"),
      staleRequest ∉ c.requests :=
  ⟨by decide,
   stale_request_never_clustered flatDist [staleRequest, freshRequest] cexParams 0
     (fun _ => "u") staleRequest (by decide)⟩

/-- C5 counterexample: `cluster` does draw random numbers — a uuid per
pushed cluster — so two runs on the identical request list and parameters
whose uuid draws differ return different cluster lists. -/
theorem cluster_uuid_draws_counterexample :
    DBSCANCluster flatDist [freshRequest] cexParams 0 (fun _ => "a") ≠
      DBSCANCluster flatDist [freshRequest] cexParams 0 (fun _ => "b") := by
  decide

/-- Forget the uuid id field of a cluster. -/
def stripClusterId (c : Cluster) : PreCluster := ⟨c.centroid, c.requests⟩

lemma assignIds_stripId (ids : ℕ → String) (cs : List PreCluster) :
    ∀ k, (assignIds ids k cs).map stripClusterId = cs := by
  induction cs with
  | nil => intro k; rfl
  | cons c cs ih =>
      intro k
      rw [assignIds, List.map_cons, ih (k + 1)]
      rfl

/-- Shared: apart from the uuid-generated id fields, the output of
`cluster` does not depend on the uuid draws. -/
lemma cluster_strip_eq (hav : Hav) (requests : List RideRequest) (params : ClusterParams)
    (now : ℚ) (ids1 ids2 : ℕ → String) :
    (DBSCANCluster hav requests params now ids1).map stripClusterId =
      (DBSCANCluster hav requests params now ids2).map stripClusterId := by
  unfold DBSCANCluster
  by_cases h : (timeFilteredRequests requests params now).length = 0
  · rw [if_pos h, if_pos h]
  · rw [if_neg h, if_neg h, assignIds_stripId, assignIds_stripId]

/-! ## GeneticMatcher (services/matching/GeneticMatcher.ts) -/

/-- The `constraints` argument of `IMatchingStrategy.match`. -/
structure MatchConstraints where
  maxDetourKm : ℚ
deriving DecidableEq, Repr

/-- The stream of successive `Math.random()` values; the embedded
functions consume it through an explicit draw counter. -/
abbrev RNG := ℕ → ℚ

/-- `Math.floor(r * n)`, the uniform index pick pattern. -/
def jsFloorIndex (r : ℚ) (n : ℕ) : ℕ := (⌊r * (n : ℚ)⌋).toNat

/-- The (index, cluster) pairs of a candidate solution that are assigned
(entry ≥ 0); a solution is an array over cluster positions holding a
vehicle index or −1. -/
def assignedPairs (solution : List ℤ) (clusters : List Cluster) : List (ℤ × Cluster) :=
  (solution.zip clusters).filter (fun p => decide (0 ≤ p.1))

/-- `totalAssigned` of `calculateFitness`. -/
def totalAssignedOf (solution : List ℤ) (clusters : List Cluster) : ℕ :=
  ((assignedPairs solution clusters).map (fun p => p.2.requests.length)).sum

/-- `maxPossibleAssigned` of `calculateFitness`. -/
def maxPossibleAssigned (clusters : List Cluster) : ℕ :=
  (clusters.map (fun c => c.requests.length)).sum

/-- The distinct assigned vehicle indices in first-occurrence order (the
iteration order of the JS `Map` keyed by vehicle index). -/
def vehicleKeysOf (solution : List ℤ) : List ℤ :=
  (solution.filter (fun v => decide (0 ≤ v))).foldl
    (fun acc v => if v ∈ acc then acc else acc ++ [v]) []

/-- The clusters assigned to one vehicle, in solution order. -/
def clustersOfVehicle (solution : List ℤ) (clusters : List Cluster) (v : ℤ) : List Cluster :=
  ((solution.zip clusters).filter (fun p => decide (p.1 = v))).map Prod.snd

/-- The `vehicle -> all pickups -> all dropoffs` route built both by
`calculateFitness` and by `solutionToAssignments`. -/
def vehicleRoutePoints (vehicle : Vehicle) (assignedClusters : List Cluster) : List Coordinates :=
  vehicle.location ::
    ((assignedClusters.flatMap (fun c => c.requests.map RideRequest.pickupLocation)) ++
     (assignedClusters.flatMap (fun c => c.requests.map RideRequest.dropoffLocation)))

/-- One vehicle's `routeDistance - totalDirectDistance` contribution to
`totalDetour` in `calculateFitness`. -/
def vehicleDetour (hav : Hav) (vehicle : Vehicle) (assignedClusters : List Cluster) : ℚ :=
  pathDist hav (vehicleRoutePoints vehicle assignedClusters) -
    (assignedClusters.flatMap
      (fun c => c.requests.map (fun req => hav vehicle.location req.dropoffLocation))).sum

/-- `assignmentRatio` of `calculateFitness`. -/
def solutionAssignmentRatio (solution : List ℤ) (clusters : List Cluster) : ℚ :=
  (totalAssignedOf solution clusters : ℚ) / (maxPossibleAssigned clusters : ℚ)

/-- `GeneticMatcher.calculateFitness`:
`w1 * assignmentRatio - w2 * normalizedDetour` with w1 = 0.7, w2 = 0.3. -/
def calculateFitness (hav : Hav) (solution : List ℤ) (clusters : List Cluster)
    (vehicles : List Vehicle) (constraints : MatchConstraints) : ℚ :=
  let totalAssigned := totalAssignedOf solution clusters
  let totalDetour := ((vehicleKeysOf solution).map (fun v =>
    vehicleDetour hav (vehicles.getD v.toNat default) (clustersOfVehicle solution clusters v))).sum
  let normalizedDetour :=
    min (totalDetour / (if totalAssigned = 0 then 1 else (totalAssigned : ℚ)) /
      constraints.maxDetourKm) 1
  (7 / 10) * solutionAssignmentRatio solution clusters - (3 / 10) * normalizedDetour

/-- One candidate of `initializePopulation` (renamed `initCandidate` here):
assign each cluster to a random vehicle among those with enough remaining
tracked capacity, keeping the assignment only if the vehicle is within
`maxDetourKm` of the cluster centroid; capacity is tracked on a
per-candidate clone ledger.  Returns the candidate and the advanced draw
counter (a draw is consumed exactly when the eligible list is non-empty). -/
def initCandidate (hav : Hav) (clusters : List Cluster) (vehicles : List Vehicle)
    (constraints : MatchConstraints) (rng : RNG) (ctr0 : ℕ) : List ℤ × ℕ :=
  let res := (List.range clusters.length).foldl (fun st j =>
    let clusterSize := ((clusters.getD j default).requests).length
    let eligible := (List.range vehicles.length).filter
      (fun vi => decide ((clusterSize : ℤ) ≤ st.2.1.getD vi 0))
    if eligible.length ≠ 0 then
      let idx := jsFloorIndex (rng st.2.2) eligible.length
      let sel := eligible.getD idx 0
      let distance := hav (vehicles.getD sel default).location (clusters.getD j default).centroid
      if distance ≤ constraints.maxDetourKm then
        (st.1.set j (sel : ℤ), st.2.1.set sel (st.2.1.getD sel 0 - clusterSize), st.2.2 + 1)
      else (st.1, st.2.1, st.2.2 + 1)
    else st)
    (List.replicate clusters.length (-1), vehicles.map Vehicle.availableSeats, ctr0)
  (res.1, res.2.2)

/-- `initializePopulation` (renamed `initPopulation` here): 50 candidates
built in sequence, threading the draw counter. -/
def initPopulation (hav : Hav) (clusters : List Cluster) (vehicles : List Vehicle)
    (constraints : MatchConstraints) (rng : RNG) (ctr0 : ℕ) : List (List ℤ) × ℕ :=
  (List.range 50).foldl (fun st _ =>
    let cand := initCandidate hav clusters vehicles constraints rng st.2
    (st.1 ++ [cand.1], cand.2)) ([], ctr0)

/-- `tournamentSelection`: draw three random candidates, return the
fittest (scanning left to right with strict improvement). -/
def tournamentSelection (hav : Hav) (population : List (List ℤ)) (clusters : List Cluster)
    (vehicles : List Vehicle) (constraints : MatchConstraints) (rng : RNG) (ctr : ℕ) :
    List ℤ × ℕ :=
  let t0 := population.getD (jsFloorIndex (rng ctr) population.length) []
  let t1 := population.getD (jsFloorIndex (rng (ctr + 1)) population.length) []
  let t2 := population.getD (jsFloorIndex (rng (ctr + 2)) population.length) []
  let b1 := if calculateFitness hav t0 clusters vehicles constraints <
      calculateFitness hav t1 clusters vehicles constraints then t1 else t0
  let b2 := if calculateFitness hav b1 clusters vehicles constraints <
      calculateFitness hav t2 clusters vehicles constraints then t2 else b1
  (b2, ctr + 3)

/-- `crossover`: single-point crossover at a random split index. -/
def gaCrossover (parent1 parent2 : List ℤ) (r : ℚ) : List ℤ × List ℤ :=
  let crossoverPoint := jsFloorIndex r parent1.length
  (parent1.take crossoverPoint ++ parent2.drop crossoverPoint,
   parent2.take crossoverPoint ++ parent1.drop crossoverPoint)

/-- `mutate`: per gene, with probability MUTATION_RATE = 0.2, reassign the
cluster to a random choice among the currently feasible vehicles
(capacity checked against the canonical `availableSeats`, crediting back
the current assignment) plus the unassign option, excluding the current
value; the gene decision always consumes one draw, the index pick one
more when options exist. -/
def mutate (hav : Hav) (clusters : List Cluster) (vehicles : List Vehicle)
    (constraints : MatchConstraints) (rng : RNG) (solution : List ℤ) (ctr : ℕ) :
    List ℤ × ℕ :=
  (List.range solution.length).foldl (fun st i =>
    let decision := rng st.2
    if decision < (2 / 10 : ℚ) then
      let currentVehicle := st.1.getD i (-1)
      let clusterSize := ((clusters.getD i default).requests).length
      let eligibleVehicles := ((List.range vehicles.length).filter (fun vi =>
        let vehicle := vehicles.getD vi default
        let availableCapacity := vehicle.availableSeats +
          (if (vi : ℤ) = currentVehicle then (clusterSize : ℤ) else 0)
        decide ((clusterSize : ℤ) ≤ availableCapacity ∧
          hav vehicle.location (clusters.getD i default).centroid ≤
            constraints.maxDetourKm))).map (fun vi => (vi : ℤ))
      let options := (eligibleVehicles ++ [(-1 : ℤ)]).filter
        (fun v => decide (v ≠ currentVehicle))
      if options.length = 0 then (st.1, st.2 + 1)
      else
        (st.1.set i (options.getD (jsFloorIndex (rng (st.2 + 1)) options.length) (-1)),
         st.2 + 2)
    else (st.1, st.2 + 1)) (solution, ctr)

/-- `repairSolution`: recompute the per-vehicle seat ledger from scratch,
then unassign any cluster whose vehicle ledger is negative and any
cluster beyond `maxDetourKm` of its vehicle; both unassignments credit
the cluster size back to the ledger, and the distance credit happens even
when the same cluster was already unassigned by the capacity check. -/
def repairSolution (hav : Hav) (solution : List ℤ) (clusters : List Cluster)
    (vehicles : List Vehicle) (constraints : MatchConstraints) : List ℤ :=
  let ledger1 := (List.range solution.length).foldl (fun led i =>
    let vi := solution.getD i (-1)
    if 0 ≤ vi then
      led.set vi.toNat (led.getD vi.toNat 0 - ((clusters.getD i default).requests).length)
    else led) (vehicles.map Vehicle.availableSeats)
  let res := (List.range solution.length).foldl (fun st i =>
    let vehicleIndex := st.2.getD i (-1)
    if vehicleIndex < 0 then st
    else
      let clusterSize := ((clusters.getD i default).requests).length
      let st1 := if st.1.getD vehicleIndex.toNat 0 < 0 then
          (st.1.set vehicleIndex.toNat (st.1.getD vehicleIndex.toNat 0 + clusterSize),
           st.2.set i (-1))
        else st
      let distance := hav (vehicles.getD vehicleIndex.toNat default).location
        (clusters.getD i default).centroid
      if constraints.maxDetourKm < distance then
        (st1.1.set vehicleIndex.toNat (st1.1.getD vehicleIndex.toNat 0 + clusterSize),
         st1.2.set i (-1))
      else st1) (ledger1, solution)
  res.2

/-- The population sorted by fitness, descending and stable (the ES2019
`Array.prototype.sort` contract with the `fitness(b) - fitness(a)`
comparator); the key is evaluated once per element, which yields the same
order. -/
def sortedByFitness (hav : Hav) (population : List (List ℤ)) (clusters : List Cluster)
    (vehicles : List Vehicle) (constraints : MatchConstraints) : List (List ℤ) :=
  (sortDescBy Prod.fst
    (population.map (fun s => (calculateFitness hav s clusters vehicles constraints, s)))).map
    Prod.snd

/-- The `while (newPopulation.length < POPULATION_SIZE)` offspring loop of
`evolvePopulation`.  Each iteration appends at least one offspring, so the
loop runs at most POPULATION_SIZE iterations and the fuel of 50 passed by
the caller can never be exhausted. -/
def offspringLoop (hav : Hav) (clusters : List Cluster) (vehicles : List Vehicle)
    (constraints : MatchConstraints) (rng : RNG) (population : List (List ℤ)) :
    ℕ → List (List ℤ) → ℕ → List (List ℤ) × ℕ
  | 0, newPop, ctr => (newPop, ctr)
  | fuel + 1, newPop, ctr =>
    if newPop.length < 50 then
      let t1 := tournamentSelection hav population clusters vehicles constraints rng ctr
      let t2 := tournamentSelection hav population clusters vehicles constraints rng t1.2
      let cross := if rng t2.2 < (7 / 10 : ℚ) then
          (gaCrossover t1.1 t2.1 (rng (t2.2 + 1)), t2.2 + 2)
        else ((t1.1, t2.1), t2.2 + 1)
      let m1 := mutate hav clusters vehicles constraints rng cross.1.1 cross.2
      let m2 := mutate hav clusters vehicles constraints rng cross.1.2 m1.2
      let o1 := repairSolution hav m1.1 clusters vehicles constraints
      let o2 := repairSolution hav m2.1 clusters vehicles constraints
      let newPop1 := newPop ++ [o1]
      let newPop2 := if newPop1.length < 50 then newPop1 ++ [o2] else newPop1
      offspringLoop hav clusters vehicles constraints rng population fuel newPop2 m2.2
    else (newPop, ctr)

/-- `evolvePopulation`: keep the floor(50 × 0.2) = 10 elite solutions,
then fill with offspring from tournament selection, crossover with
probability 0.7, mutation, and repair. -/
def evolvePopulation (hav : Hav) (population : List (List ℤ)) (clusters : List Cluster)
    (vehicles : List Vehicle) (constraints : MatchConstraints) (rng : RNG) (ctr : ℕ) :
    List (List ℤ) × ℕ :=
  offspringLoop hav clusters vehicles constraints rng population 50
    ((sortedByFitness hav population clusters vehicles constraints).take 10) ctr

/-- `findBestSolution`: first strict-improvement scan of the population. -/
def findBestSolution (hav : Hav) (population : List (List ℤ)) (clusters : List Cluster)
    (vehicles : List Vehicle) (constraints : MatchConstraints) : List ℤ :=
  match population with
  | [] => []
  | best :: rest => rest.foldl (fun b s =>
      if calculateFitness hav b clusters vehicles constraints <
        calculateFitness hav s clusters vehicles constraints then s else b) best

/-- The generation-tracking state of `GeneticMatcher.match`: the current
population, the tracked best candidate and its fitness, the stagnation
counter, the draw counter, and whether the early-termination break has
fired. -/
structure GAState where
  population : List (List ℤ)
  bestSolution : List ℤ
  bestFitness : ℚ
  generationsWithoutImprovement : ℕ
  ctr : ℕ
  finished : Bool
deriving DecidableEq, Repr

/-- The state before the generation loop of `match`. -/
def gaInit (hav : Hav) (clusters : List Cluster) (vehicles : List Vehicle)
    (constraints : MatchConstraints) (rng : RNG) : GAState :=
  let ip := initPopulation hav clusters vehicles constraints rng 0
  let best := findBestSolution hav ip.1 clusters vehicles constraints
  { population := ip.1
    bestSolution := best
    bestFitness := calculateFitness hav best clusters vehicles constraints
    generationsWithoutImprovement := 0
    ctr := ip.2
    finished := false }

/-- One iteration of the generation loop of `match`: evolve, compare the
generation best against the incumbent, replace only on strict
improvement, and fire the early-termination break after 20 consecutive
generations without improvement.  A finished state is frozen. -/
def gaStep (hav : Hav) (clusters : List Cluster) (vehicles : List Vehicle)
    (constraints : MatchConstraints) (rng : RNG) (st : GAState) : GAState :=
  if st.finished then st
  else
    let ev := evolvePopulation hav st.population clusters vehicles constraints rng st.ctr
    let currentBest := findBestSolution hav ev.1 clusters vehicles constraints
    let currentFitness := calculateFitness hav currentBest clusters vehicles constraints
    if st.bestFitness < currentFitness then
      { population := ev.1
        bestSolution := currentBest
        bestFitness := currentFitness
        generationsWithoutImprovement := 0
        ctr := ev.2
        finished := false }
    else
      { population := ev.1
        bestSolution := st.bestSolution
        bestFitness := st.bestFitness
        generationsWithoutImprovement := st.generationsWithoutImprovement + 1
        ctr := ev.2
        finished := decide (20 ≤ st.generationsWithoutImprovement + 1) }

/-- The tracked state after `k` iterations of the generation loop. -/
def gaStates (hav : Hav) (clusters : List Cluster) (vehicles : List Vehicle)
    (constraints : MatchConstraints) (rng : RNG) : ℕ → GAState
  | 0 => gaInit hav clusters vehicles constraints rng
  | k + 1 => gaStep hav clusters vehicles constraints rng
      (gaStates hav clusters vehicles constraints rng k)

/-- `solutionToAssignments`: one assignment per vehicle with at least one
assigned cluster, in first-occurrence order, with the concatenated
request ids and the vehicle→pickups→dropoffs route. -/
def solutionToAssignments (solution : List ℤ) (clusters : List Cluster)
    (vehicles : List Vehicle) : List Assignment :=
  (vehicleKeysOf solution).map (fun v =>
    let vehicle := vehicles.getD v.toNat default
    let assignedClusters := clustersOfVehicle solution clusters v
    { vehicleId := vehicle.id
      requestIds := assignedClusters.flatMap (fun c => c.requests.map RideRequest.id)
      route := vehicleRoutePoints vehicle assignedClusters })

/-- `GeneticMatcher.match`: MAX_GENERATIONS = 100 loop iterations (with
the early-termination freeze inside `gaStep`) over the initial
population, then conversion of the tracked best solution. -/
def geneticMatch (hav : Hav) (clusters : List Cluster) (vehicles : List Vehicle)
    (constraints : MatchConstraints) (rng : RNG) : List Assignment :=
  if clusters.length = 0 ∨ vehicles.length = 0 then []
  else solutionToAssignments
    (gaStates hav clusters vehicles constraints rng 100).bestSolution clusters vehicles

/-- C4 (amended): within one run of `match`, the tracked best candidate's
fitness is monotonically non-decreasing from one generation to the next,
and the incumbent best solution is replaced only by a strictly fitter
generation best (otherwise it is retained unchanged).  (The
assignmentRatio alone is not monotone; see the counterexample.) -/
theorem ga_incumbent_fitness_monotone (hav : Hav) (clusters : List Cluster)
    (vehicles : List Vehicle) (constraints : MatchConstraints) (rng : RNG) (k : ℕ) :
    (gaStates hav clusters vehicles constraints rng k).bestFitness ≤
      (gaStates hav clusters vehicles constraints rng (k + 1)).bestFitness ∧
    ((gaStates hav clusters vehicles constraints rng (k + 1)).bestSolution ≠
        (gaStates hav clusters vehicles constraints rng k).bestSolution →
      (gaStates hav clusters vehicles constraints rng k).bestFitness <
        (gaStates hav clusters vehicles constraints rng (k + 1)).bestFitness) := by
  rw [gaStates]
  set st := gaStates hav clusters vehicles constraints rng k with hst
  unfold gaStep
  by_cases hf : st.finished
  · rw [if_pos hf]
    exact ⟨le_refl _, fun h => absurd rfl h⟩
  · rw [if_neg hf]
    by_cases himp : st.bestFitness <
        calculateFitness hav
          (findBestSolution hav
            (evolvePopulation hav st.population clusters vehicles constraints rng st.ctr).1
            clusters vehicles constraints) clusters vehicles constraints
    · rw [if_pos himp]
      exact ⟨le_of_lt himp, fun _ => himp⟩
    · rw [if_neg himp]
      exact ⟨le_refl _, fun h => absurd rfl h⟩

/-- Concrete vehicle for the generation-trace evaluations. -/
def c4Vehicle : Vehicle := ⟨"v0", ⟨0, 0⟩, 2, 2⟩

/-- Two-request cluster whose centroid sits on the vehicle but whose
pickups/dropoffs force a large detour. -/
def c4Cluster0 : Cluster :=
  ⟨"c0", ⟨0, 0⟩, [⟨"p1", ⟨10, 0⟩, ⟨10, 0⟩, 0⟩, ⟨"p2", ⟨-10, 0⟩, ⟨-10, 0⟩, 0⟩]⟩

/-- One-request cluster with zero detour. -/
def c4Cluster1 : Cluster := ⟨"c1", ⟨0, 0⟩, [⟨"p3", ⟨0, 0⟩, ⟨0, 5⟩, 0⟩]⟩

/-- Random stream steering generation 0: the only sub-0.2 draws are the
two mutation decisions that turn one offspring into the small-but-fitter
candidate. -/
def c4Rng : RNG := fun k => if k = 57 ∨ k = 59 then 1 / 10 else 9 / 10

/-- Constraints for the generation-trace evaluations. -/
def c4Constraints : MatchConstraints := ⟨2⟩

set_option maxRecDepth 100000 in
/-- C4 counterexample: across one generation of `match` the tracked best
candidate's assignmentRatio strictly decreases (from 2/3 to 1/3) — the
incumbent, which serves two requests with a detour-capped fitness, is
replaced by a strictly fitter candidate that serves only one request. -/
theorem ga_assignment_ratio_decreases :
    solutionAssignmentRatio
        (gaStates flatDist [c4Cluster0, c4Cluster1] [c4Vehicle] c4Constraints c4Rng 1).bestSolution
        [c4Cluster0, c4Cluster1] <
      solutionAssignmentRatio
        (gaStates flatDist [c4Cluster0, c4Cluster1] [c4Vehicle] c4Constraints c4Rng 0).bestSolution
        [c4Cluster0, c4Cluster1] := by
  decide

set_option maxRecDepth 100000 in
/-- Witness for the amended C4 theorem: at the concrete trace above the
incumbent is replaced between generations 0 and 1, and the theorem forces
its fitness to strictly increase. -/
theorem ga_incumbent_fitness_monotone_witness :
    (gaStates flatDist [c4Cluster0, c4Cluster1] [c4Vehicle] c4Constraints c4Rng 1).bestSolution ≠
      (gaStates flatDist [c4Cluster0, c4Cluster1] [c4Vehicle] c4Constraints c4Rng 0).bestSolution ∧
    (gaStates flatDist [c4Cluster0, c4Cluster1] [c4Vehicle] c4Constraints c4Rng 0).bestFitness <
      (gaStates flatDist [c4Cluster0, c4Cluster1] [c4Vehicle] c4Constraints c4Rng 1).bestFitness :=
  ⟨by decide,
   (ga_incumbent_fitness_monotone flatDist [c4Cluster0, c4Cluster1] [c4Vehicle] c4Constraints
     c4Rng 0).2 (by decide)⟩

/-- One-seat vehicle for the repair counterexample. -/
def c2Vehicle : Vehicle := ⟨"w0", ⟨0, 0⟩, 1, 1⟩

/-- The clusters of the repair counterexample: the first is outside the
distance constraint, the other two are feasible. -/
def c2Clusters : List Cluster :=
  [⟨"k0", ⟨100, 0⟩, [⟨"a", ⟨100, 0⟩, ⟨100, 0⟩, 0⟩]⟩,
   ⟨"k1", ⟨0, 0⟩, [⟨"b", ⟨0, 0⟩, ⟨0, 1⟩, 0⟩]⟩,
   ⟨"k2", ⟨0, 0⟩, [⟨"c", ⟨0, 0⟩, ⟨0, 1⟩, 0⟩]⟩]

/-- C2 (code bug): `repairSolution` credits the seat ledger twice for a
cluster that fails both the capacity and the distance check, so on the
solution assigning all three clusters to the one-seat vehicle it returns
a "repaired" solution that still books 2 requests on a vehicle whose
capacity (and availableSeats) is 1 — and `solutionToAssignments` then
emits that overloaded assignment. -/
theorem repair_capacity_violation :
    repairSolution flatDist [0, 0, 0] c2Clusters [c2Vehicle] c4Constraints = [-1, 0, 0] ∧
    ((clustersOfVehicle
        (repairSolution flatDist [0, 0, 0] c2Clusters [c2Vehicle] c4Constraints)
        c2Clusters 0).map (fun c => c.requests.length)).sum = 2 ∧
    ((solutionToAssignments
        (repairSolution flatDist [0, 0, 0] c2Clusters [c2Vehicle] c4Constraints)
        c2Clusters [c2Vehicle]).map (fun a => a.requestIds.length)) = [2] ∧
    c2Vehicle.capacity = 1 ∧ c2Vehicle.availableSeats = 1 := by
  decide

/-- C5 (amended): both core operations are deterministic once their
effect sources are explicit — `cluster`'s output is independent of the
uuid draws except for the generated cluster id fields, and `match` run
twice with identical inputs and identical random draws returns identical
assignment lists. -/
theorem deterministic_modulo_draws :
    (∀ (hav : Hav) (requests : List RideRequest) (params : ClusterParams) (now : ℚ)
      (ids1 ids2 : ℕ → String),
      (DBSCANCluster hav requests params now ids1).map stripClusterId =
        (DBSCANCluster hav requests params now ids2).map stripClusterId) ∧
    (∀ (hav : Hav) (clusters : List Cluster) (vehicles : List Vehicle)
      (constraints : MatchConstraints) (rng1 rng2 : RNG),
      (∀ n, rng1 n = rng2 n) →
      geneticMatch hav clusters vehicles constraints rng1 =
        geneticMatch hav clusters vehicles constraints rng2) :=
  ⟨cluster_strip_eq, fun _ _ _ _ rng1 rng2 h => by rw [funext h]⟩

/-- Witness for the C5 theorem: identical draw streams discharge the
hypothesis, and the two runs coincide. -/
theorem deterministic_modulo_draws_witness :
    (∀ n : ℕ, c4Rng n = c4Rng n) ∧
    geneticMatch flatDist [c4Cluster0] [c4Vehicle] c4Constraints c4Rng =
      geneticMatch flatDist [c4Cluster0] [c4Vehicle] c4Constraints c4Rng :=
  ⟨fun _ => rfl,
   deterministic_modulo_draws.2 flatDist [c4Cluster0] [c4Vehicle] c4Constraints c4Rng c4Rng
     (fun _ => rfl)⟩

/-! ## Heap-level model of the capacity bookkeeping (frame claim)

The TypeScript vehicle objects live on the heap; `initializePopulation`
builds per-candidate clones with `vehicles.map(v => ({...v, ...}))` and
decrements `availableSeats` only on those clones, while `repairSolution`
books capacity on a plain per-candidate number array.  To state the frame
property, the heap is modelled as a store (list of vehicle records) in
which the canonical vehicles occupy the cells `0..canonCount-1`, the
spread clone allocates fresh cells at the end of the store, and every
`availableSeats` write is a store update at a clone cell. -/

/-- Heap-level `initializePopulation` candidate construction: allocate one
clone cell per canonical vehicle, then run the assignment loop reading
and writing only the clone cells. -/
def storeInitCandidate (hav : Hav) (clusters : List Cluster) (constraints : MatchConstraints)
    (rng : RNG) (canonCount : ℕ) (store : List Vehicle) (ctr : ℕ) :
    List ℤ × List Vehicle × ℕ :=
  let base := store.length
  let store1 := store ++ (List.range canonCount).map (fun i => store.getD i default)
  (List.range clusters.length).foldl (fun st j =>
    let clusterSize := ((clusters.getD j default).requests).length
    let eligible := (List.range canonCount).filter
      (fun vi => decide ((clusterSize : ℤ) ≤ (st.2.1.getD (base + vi) default).availableSeats))
    if eligible.length ≠ 0 then
      let idx := jsFloorIndex (rng st.2.2) eligible.length
      let sel := eligible.getD idx 0
      let v := st.2.1.getD (base + sel) default
      let distance := hav v.location (clusters.getD j default).centroid
      if distance ≤ constraints.maxDetourKm then
        (st.1.set j (sel : ℤ),
         st.2.1.set (base + sel) { v with availableSeats := v.availableSeats - clusterSize },
         st.2.2 + 1)
      else (st.1, st.2.1, st.2.2 + 1)
    else st)
    (List.replicate clusters.length (-1), store1, ctr)

/-- Heap-level `initializePopulation`: 50 candidates, each allocating its
own clone cells in the shared store. -/
def storeInitPopulation (hav : Hav) (clusters : List Cluster) (constraints : MatchConstraints)
    (rng : RNG) (canonCount : ℕ) (store : List Vehicle) (ctr : ℕ) :
    List (List ℤ) × List Vehicle × ℕ :=
  (List.range 50).foldl (fun st _ =>
    let cand := storeInitCandidate hav clusters constraints rng canonCount st.2.1 st.2.2
    (st.1 ++ [cand.1], cand.2.1, cand.2.2)) ([], store, ctr)

/-- Heap-level `repairSolution`: the seat bookkeeping happens on the
fresh number ledger inside `repairSolution` (`vehicles.map(v =>
v.availableSeats)`), and the source performs no write to any vehicle
cell, so the store component passes through untouched. -/
def storeRepairSolution (hav : Hav) (solution : List ℤ) (clusters : List Cluster)
    (store : List Vehicle) (constraints : MatchConstraints) : List ℤ × List Vehicle :=
  (repairSolution hav solution clusters store constraints, store)

lemma take_set_of_le {α : Type} (l : List α) (m i : ℕ) (a : α) (h : m ≤ i) :
    (l.set i a).take m = l.take m := by
  apply List.ext_getElem?
  intro n
  rw [List.getElem?_take, List.getElem?_take]
  by_cases hn : n < m
  · rw [if_pos hn, if_pos hn]
    exact List.getElem?_set_ne (by omega)
  · rw [if_neg hn, if_neg hn]

lemma foldl_preserve {α β : Type} (f : β → α → β) (P : β → Prop)
    (hstep : ∀ b a, P b → P (f b a)) :
    ∀ (l : List α) (b : β), P b → P (l.foldl f b) := by
  intro l
  induction l with
  | nil => intro b hb; exact hb
  | cons a l ih => intro b hb; exact ih (f b a) (hstep b a hb)

lemma storeInitCandidate_take (hav : Hav) (clusters : List Cluster)
    (constraints : MatchConstraints) (rng : RNG) (canonCount : ℕ) (store : List Vehicle)
    (ctr : ℕ) (h : canonCount ≤ store.length) :
    ((storeInitCandidate hav clusters constraints rng canonCount store ctr).2.1).take canonCount =
      store.take canonCount ∧
    store.length ≤ (storeInitCandidate hav clusters constraints rng canonCount store ctr).2.1.length := by
  unfold storeInitCandidate
  have hP := foldl_preserve
    (α := ℕ) (β := List ℤ × List Vehicle × ℕ)
    (fun st j =>
      let clusterSize := ((clusters.getD j default).requests).length
      let eligible := (List.range canonCount).filter
        (fun vi => decide ((clusterSize : ℤ) ≤ (st.2.1.getD (store.length + vi) default).availableSeats))
      if eligible.length ≠ 0 then
        let idx := jsFloorIndex (rng st.2.2) eligible.length
        let sel := eligible.getD idx 0
        let v := st.2.1.getD (store.length + sel) default
        let distance := hav v.location (clusters.getD j default).centroid
        if distance ≤ constraints.maxDetourKm then
          (st.1.set j (sel : ℤ),
           st.2.1.set (store.length + sel) { v with availableSeats := v.availableSeats - clusterSize },
           st.2.2 + 1)
        else (st.1, st.2.1, st.2.2 + 1)
      else st)
    (fun st => st.2.1.take canonCount = store.take canonCount ∧
      store.length ≤ st.2.1.length)
    ?_ (List.range clusters.length)
    (List.replicate clusters.length (-1),
     store ++ (List.range canonCount).map (fun i => store.getD i default), ctr)
    ⟨?_, ?_⟩
  · exact hP
  · intro st j hst
    by_cases he : ((List.range canonCount).filter
        (fun vi => decide ((((clusters.getD j default).requests).length : ℤ) ≤
          (st.2.1.getD (store.length + vi) default).availableSeats))).length ≠ 0
    · simp only [if_pos he]
      by_cases hd : hav (st.2.1.getD (store.length +
            ((List.range canonCount).filter
              (fun vi => decide ((((clusters.getD j default).requests).length : ℤ) ≤
                (st.2.1.getD (store.length + vi) default).availableSeats))).getD
              (jsFloorIndex (rng st.2.2)
                ((List.range canonCount).filter
                  (fun vi => decide ((((clusters.getD j default).requests).length : ℤ) ≤
                    (st.2.1.getD (store.length + vi) default).availableSeats))).length) 0)
          default).location (clusters.getD j default).centroid ≤ constraints.maxDetourKm
      · simp only [if_pos hd]
        constructor
        · rw [take_set_of_le _ _ _ _ (by omega)]
          exact hst.1
        · rw [List.length_set]
          exact hst.2
      · simp only [if_neg hd]
        exact hst
    · simp only [if_neg he]
      exact hst
  · rw [List.take_append_of_le_length h]
  · rw [List.length_append]
    omega

lemma storeInitPopulation_take (hav : Hav) (clusters : List Cluster)
    (constraints : MatchConstraints) (rng : RNG) (canonCount : ℕ) (store : List Vehicle)
    (ctr : ℕ) (h : canonCount ≤ store.length) :
    ((storeInitPopulation hav clusters constraints rng canonCount store ctr).2.1).take canonCount =
      store.take canonCount := by
  unfold storeInitPopulation
  have hP := foldl_preserve
    (α := ℕ) (β := List (List ℤ) × List Vehicle × ℕ)
    (fun st _ =>
      let cand := storeInitCandidate hav clusters constraints rng canonCount st.2.1 st.2.2
      (st.1 ++ [cand.1], cand.2.1, cand.2.2))
    (fun st => st.2.1.take canonCount = store.take canonCount ∧
      canonCount ≤ st.2.1.length)
    ?_ (List.range 50) ([], store, ctr) ⟨rfl, h⟩
  · exact hP.1
  · intro st a hst
    have hc := storeInitCandidate_take hav clusters constraints rng canonCount st.2.1 st.2.2 hst.2
    exact ⟨hc.1.trans hst.1, le_trans hst.2 hc.2⟩

/-- C8: the matcher's capacity bookkeeping never mutates the canonical
vehicle list.  In the heap-level model, `initializePopulation` writes
`availableSeats` only on the per-candidate clone cells it allocates, so
the canonical cells are unchanged afterwards; and `repairSolution` books
capacity only on a per-candidate number ledger, passing the vehicle store
through untouched. -/
theorem canonical_vehicles_not_mutated (hav : Hav) (clusters : List Cluster)
    (constraints : MatchConstraints) (rng : RNG) (ctr : ℕ) (store : List Vehicle) :
    ((storeInitPopulation hav clusters constraints rng store.length store ctr).2.1).take
        store.length = store ∧
    (∀ (solution : List ℤ) (cs : List Cluster),
      (storeRepairSolution hav solution cs store constraints).2 = store) := by
  constructor
  · rw [storeInitPopulation_take hav clusters constraints rng store.length store ctr (le_refl _)]
    exact List.take_length store
  · intro solution cs
    rfl
